import Mathlib

/-!
Shallow embedding of the template generation engine of
`scripts/generate-template.mjs` (class `TemplateGenerator`).

Strings are Lean `String`s (JS strings); JS objects whose key sets are
open-ended are association lists; absent JS values (`undefined`) are `none`.
The cryptographic random source (`node:crypto.randomBytes`) and the wall
clock (`new Date()`) are modelled as explicit inputs, and the byte output of
`randomBytes(32)` on the k-th call is `rand k : List Nat` (each byte < 256).
-/

/-- JS `s.includes(sub)` : substring containment, case sensitive. -/
def jsIncludes (s sub : String) : Bool :=
  decide (sub.toList <:+: s.toList)

/-- JS truthiness of a possibly-absent string: `undefined` and `""` are falsy. -/
def jsTruthy : Option String → Bool
  | none => false
  | some s => s != ""

/-- JS `a || b` on possibly-absent strings. -/
def jsOrStr (a b : Option String) : Option String :=
  if jsTruthy a then a else b

/-- JS template interpolation of a possibly-absent string: an absent value
prints as the literal string `undefined`. -/
def jsToString : Option String → String
  | none => "undefined"
  | some s => s

/-- One entry of a template's `envVars` list in `.templates.json`.
`default` and `example` are optional in the catalog (`undefined` when absent). -/
structure EnvVarSpec where
  key : String
  required : Bool
  default : Option String
  exampleVal : Option String
deriving DecidableEq

/-- A resolved customization value: `select` options are strings,
`multiselect` values are string lists, `boolean` values are booleans. -/
inductive CustomValue where
  | str (s : String)
  | list (l : List String)
  | bool (b : Bool)
deriving DecidableEq

/-- The `customizations` object: JS object modelled as an association list. -/
def Customizations : Type := List (String × CustomValue)

/-- JS property read `customizations[k]` (`undefined` when the key is absent). -/
def getCustom (cust : Customizations) (k : String) : Option CustomValue :=
  (cust.find? (fun p => p.1 == k)).map (fun p => p.2)

/-- JS `customizations.authProviders?.includes(p)` coerced to a boolean:
an absent `authProviders` gives `undefined`, which is falsy; an array uses
element membership; a string uses substring containment. -/
def authIncludes (cust : Customizations) (p : String) : Bool :=
  match getCustom cust "authProviders" with
  | some (CustomValue.list l) => l.contains p
  | some (CustomValue.str s) => jsIncludes s p
  | _ => false

/-- JS `customizations.includeStripe === false` (strict equality: only a
present boolean `false` matches). -/
def isStripeOff (cust : Customizations) : Bool :=
  decide (getCustom cust "includeStripe" = some (CustomValue.bool false))

/-- Line 203 of the source:
`envVar.required ? envVar.example : (envVar.default || envVar.example || '')`. -/
def candidateValue (v : EnvVarSpec) : Option String :=
  if v.required then v.exampleVal
  else jsOrStr v.default (jsOrStr v.exampleVal (some ""))

/-- Hex digits of one byte, low nibble last, lowercase (`Buffer.toString('hex')`). -/
def hexByte (b : Nat) : List Char :=
  [Nat.digitChar (b / 16), Nat.digitChar (b % 16)]

/-- `randomBytes(n).toString('hex')` on an explicit byte list. -/
def hexEncode (bs : List Nat) : String :=
  List.asString (bs.map hexByte).flatten

/-- The per-variable loop body of `generateEnvFile` (source lines 202-226).
`rand k` is the byte list returned by the k-th call to `randomBytes(32)`;
the counter `k` advances exactly when a secret is drawn. -/
def envVarLines (cust : Customizations) (rand : Nat → List Nat) :
    List EnvVarSpec → Nat → List String
  | [], _ => []
  | v :: vs, k =>
    let value := candidateValue v
    if jsIncludes v.key "GITHUB" && !(authIncludes cust "github") then
      ("# " ++ v.key ++ "=" ++ jsToString value) :: envVarLines cust rand vs k
    else if jsIncludes v.key "GOOGLE" && !(authIncludes cust "google") then
      ("# " ++ v.key ++ "=" ++ jsToString value) :: envVarLines cust rand vs k
    else if jsIncludes v.key "STRIPE" && isStripeOff cust then
      ("# " ++ v.key ++ "=" ++ jsToString value) :: envVarLines cust rand vs k
    else if jsIncludes v.key "SECRET" && !(jsIncludes v.key "STRIPE") then
      (v.key ++ "=" ++ hexEncode (rand k)) :: envVarLines cust rand vs (k + 1)
    else
      (v.key ++ "=" ++ jsToString value) :: envVarLines cust rand vs k

/-- JSON values, as produced by `JSON.parse`. -/
inductive Json where
  | null
  | bool (b : Bool)
  | num (n : Int)
  | str (s : String)
  | arr (xs : List Json)
  | obj (fields : List (String × Json))

/-- JS property assignment `pkg[k] = v` on an object: an existing key keeps
its position and gets the new value, a new key is appended. -/
def setKey (fs : List (String × Json)) (k : String) (v : Json) :
    List (String × Json) :=
  if fs.any (fun p => p.1 == k) then
    fs.map (fun p => if p.1 == k then (k, v) else p)
  else fs ++ [(k, v)]

/-- JS `delete obj[k]`. -/
def deleteKey (fs : List (String × Json)) (k : String) : List (String × Json) :=
  fs.filter (fun p => p.1 != k)

/-- JS `delete pkg[parent]?.[k]` : when `pkg[parent]` is an object, remove its
key `k`; when it is absent or not an object, do nothing observable. -/
def deleteInChild (fs : List (String × Json)) (parent k : String) :
    List (String × Json) :=
  fs.map (fun p =>
    if p.1 == parent then
      (p.1, match p.2 with
        | Json.obj g => Json.obj (deleteKey g k)
        | x => x)
    else p)

/-- JS property read `obj[k]`. -/
def lookupField (fs : List (String × Json)) (k : String) : Option Json :=
  (fs.find? (fun p => p.1 == k)).map (fun p => p.2)

/-- The `projectDetails` record. -/
structure ProjectDetails where
  projectName : String
  projectDescription : String
  author : String

/-- Source lines 283-288: the `includeAuth === false` dependency removals. -/
def removeAuthDeps (cust : Customizations) (pkg : List (String × Json)) :
    List (String × Json) :=
  if getCustom cust "includeAuth" = some (CustomValue.bool false) then
    deleteInChild (deleteInChild (deleteInChild (deleteInChild
      pkg "dependencies" "jsonwebtoken")
      "dependencies" "bcryptjs")
      "devDependencies" "@types/jsonwebtoken")
      "devDependencies" "@types/bcryptjs"
  else pkg

/-- Source lines 290-292: the `includeRateLimiting === false` removal. -/
def removeRateLimitDeps (cust : Customizations) (pkg : List (String × Json)) :
    List (String × Json) :=
  if getCustom cust "includeRateLimiting" = some (CustomValue.bool false) then
    deleteInChild pkg "dependencies" "express-rate-limit"
  else pkg

/-- Source lines 294-297: the `includeStripe === false` removals. -/
def removeStripeDeps (cust : Customizations) (pkg : List (String × Json)) :
    List (String × Json) :=
  if getCustom cust "includeStripe" = some (CustomValue.bool false) then
    deleteInChild (deleteInChild pkg "dependencies" "stripe")
      "dependencies" "@stripe/stripe-js"
  else pkg

/-- Source lines 274-300: `transformPackageJson`, at the level of the parsed
manifest object (`JSON.parse` result for a JSON-object manifest; the
surrounding parse/stringify round-trip is the identity on this model).
The field assignments and the three conditional dependency-removal blocks
run in source order. -/
def transformPackageJson (pd : ProjectDetails) (cust : Customizations)
    (pkg : List (String × Json)) : List (String × Json) :=
  removeStripeDeps cust (removeRateLimitDeps cust (removeAuthDeps cust
    (setKey (setKey (setKey (setKey pkg
      "name" (Json.str pd.projectName))
      "description" (Json.str pd.projectDescription))
      "author" (Json.str pd.author))
      "version" (Json.str "0.1.0"))))

/-- Source lines 302-313: `transformReadme`. The wall-clock date string
`new Date().toISOString().split('T')[0]` is the explicit parameter `today`.
JS string splitting and concatenation are mirrored on the character lists. -/
def transformReadme (pd : ProjectDetails) (today : String) (content : String) :
    String :=
  let lines := content.toList.splitOn '\n'
  let lines :=
    match lines with
    | [] => []
    | l0 :: rest =>
      (if l0.head? == some '#' then ("# " ++ pd.projectName).toList else l0)
        :: rest
  let notice :=
    '\n' :: ("> Generated from Project Starter Guide on " ++ today).toList
      ++ ['\n']
  List.asString
    (List.intercalate ['\n'] (lines.take 2) ++ notice
      ++ List.intercalate ['\n'] (lines.drop 2))

/-- A directory entry as seen by `readdirSync(..., { withFileTypes: true })`:
either a file with content, or a subdirectory. Content is a type parameter;
`copyTemplateFiles` instantiates it with file text. -/
inductive FsEntry (α : Type) where
  | file (name : String) (content : α)
  | dir (name : String) (children : List (FsEntry α))

/-- Source line 235. -/
def skipDirs : List String :=
  ["node_modules", ".next", "dist", "build", "coverage", ".prisma-cache",
   ".prisma-home"]

/-- Source line 236. -/
def skipFiles : List String :=
  [".env", ".env.local", "package-lock.json"]

mutual
/-- The body of `copyRecursive` (source lines 239-268) on one entry:
`none` when the entry is skipped, otherwise the entry as materialized in the
output tree. `tp` and `tr` are the content transforms the source applies to
`package.json` and `README.md` (closures over `projectDetails` and
`customizations`). -/
def copyEntry (tp tr : α → α) : FsEntry α → Option (FsEntry α)
  | FsEntry.dir n cs =>
    if n ∈ skipDirs then none
    else some (FsEntry.dir n (copyEntries tp tr cs))
  | FsEntry.file n c =>
    if n ∈ skipFiles then none
    else
      let c1 := if n == "package.json" then tp c else c
      let c2 := if n == "README.md" then tr c1 else c1
      some (FsEntry.file n c2)

/-- `copyRecursive` over the entry list of one directory, in order. -/
def copyEntries (tp tr : α → α) : List (FsEntry α) → List (FsEntry α)
  | [] => []
  | e :: es =>
    match copyEntry tp tr e with
    | none => copyEntries tp tr es
    | some e2 => e2 :: copyEntries tp tr es
end

/-- `copyTemplateFiles` (source lines 231-272) as a tree transformation: the
output directory's entry list produced from the template source tree's entry
list. -/
def copyTemplateFiles (tp tr : α → α) (sourceTree : List (FsEntry α)) :
    List (FsEntry α) :=
  copyEntries tp tr sourceTree

mutual
/-- All directory paths (as component lists) at any depth of an entry. -/
def entryDirs : FsEntry α → List (List String)
  | FsEntry.file _ _ => []
  | FsEntry.dir n cs => [n] :: (entriesDirs cs).map (fun p => n :: p)

/-- All directory paths at any depth of an entry list. -/
def entriesDirs : List (FsEntry α) → List (List String)
  | [] => []
  | e :: es => entryDirs e ++ entriesDirs es
end

mutual
/-- All files at any depth of an entry: directory path, file name, content. -/
def entryFiles : FsEntry α → List (List String × String × α)
  | FsEntry.file n c => [([], n, c)]
  | FsEntry.dir n cs => (entriesFiles cs).map (fun q => (n :: q.1, q.2))

/-- All files at any depth of an entry list. -/
def entriesFiles : List (FsEntry α) → List (List String × String × α)
  | [] => []
  | e :: es => entryFiles e ++ entriesFiles es
end

/-- Whether a source file survives the copy, and with which content:
kept iff no directory on its path is excluded and its name is not excluded;
`package.json` and `README.md` contents are transformed, others verbatim. -/
def keepFile (tp tr : α → α) (q : List String × String × α) :
    Option (List String × String × α) :=
  if q.1.any (fun d => d ∈ skipDirs) || q.2.1 ∈ skipFiles then none
  else
    some (q.1, q.2.1,
      if q.2.1 == "README.md" then
        tr (if q.2.1 == "package.json" then tp q.2.2 else q.2.2)
      else if q.2.1 == "package.json" then tp q.2.2
      else q.2.2)

/-- One `customizations` option schema in the catalog. -/
structure CustomizationSpec where
  ctype : String
  label : String
  options : List String
  default : CustomValue
deriving DecidableEq

/-- One catalog entry (`config.templates[id]`). An absent `envVars` array is
the empty list. -/
structure Template where
  name : String
  description : String
  complexity : Nat
  stack : List String
  customizations : List (String × CustomizationSpec)
  envVars : List EnvVarSpec
deriving DecidableEq

/-- The loaded catalog (`.templates.json`): the `templates` mapping and
`defaults.author`. -/
structure Config where
  templates : List (String × Template)
  defaultAuthor : String
deriving DecidableEq

/-- JS property read `config.templates[id]`. -/
def lookupTemplate (cfg : Config) (id : String) : Option Template :=
  (cfg.templates.find? (fun p => p.1 == id)).map (fun p => p.2)

/-- Source lines 195-229: `generateEnvFile`. Returns `none` (no file written)
when the template declares no environment variables. -/
def generateEnvFile (template : Template) (cust : Customizations)
    (rand : Nat → List Nat) : Option String :=
  if template.envVars.isEmpty then none
  else
    some (String.intercalate "\n"
      (["# Environment Variables", "# Generated by Template Generator", ""]
        ++ envVarLines cust rand template.envVars 0))

/-- The `shortNames` alias map (source lines 427-432 and 370-375). -/
def shortNames : List (String × String) :=
  [("api", "api-service"), ("saas", "saas-level-1"), ("mobile", "mobile-app"),
   ("about", "about-me-page")]

/-- Association-list lookup for string maps. -/
def lookupStr (m : List (String × String)) (k : String) : Option String :=
  (m.find? (fun p => p.1 == k)).map (fun p => p.2)

/-- Source line 434:
`shortNames[args.template] || args.template || 'api-service'`.
An absent flag and the empty string are both falsy, so they fall through to
the literal `'api-service'`; alias values are non-empty, hence truthy. -/
def resolveTemplateId (argTemplate : Option String) : String :=
  match argTemplate with
  | none => "api-service"
  | some t =>
    match lookupStr shortNames t with
    | some full => full
    | none => if t == "" then "api-service" else t

/-- The `--key=value` flags `runNonInteractive` reads (absent flag = `none`). -/
structure Args where
  template : Option String
  name : Option String
  output : Option String

/-- Observable outcome of `runNonInteractive`: either `process.exit(code)`
with the filesystem paths written before exiting, or normal completion with
the resolved plan and the full list of written paths. -/
inductive RunResult where
  | fatal (code : Nat) (writes : List String)
  | done (templateId projectName outputDir : String) (writes : List String)
deriving DecidableEq

/-- The resolved template id of a completed run. -/
def RunResult.templateId? : RunResult → Option String
  | RunResult.fatal _ _ => none
  | RunResult.done tid _ _ _ => some tid

/-- The resolved project name of a completed run. -/
def RunResult.projectName? : RunResult → Option String
  | RunResult.fatal _ _ => none
  | RunResult.done _ pn _ _ => some pn

/-- The resolved output directory of a completed run. -/
def RunResult.outputDir? : RunResult → Option String
  | RunResult.fatal _ _ => none
  | RunResult.done _ _ od _ => some od

/-- Paths (directories and files) created when the output tree `out` is
materialized under `base`, one `mkdirSync`/`writeFileSync` each. -/
def treePaths (base : String) (out : List (FsEntry String)) : List String :=
  (entriesDirs out).map (fun p => base ++ "/" ++ String.intercalate "/" p)
    ++ (entriesFiles out).map
      (fun q => base ++ "/" ++ String.intercalate "/" (q.1 ++ [q.2.1]))

/-- Source lines 426-470: `runNonInteractive`. External collaborators are
explicit inputs: `fsTemplates id` is the entry list of the template's source
directory, `resolvePath cwd p` is `path.resolve(process.cwd(), p)`, `rand` is
the random byte source, and `tp`/`tr` are the string-level `package.json` and
`README.md` content transforms (closures over the resolved plan). JS `||`
defaults make the empty string fall through like an absent flag. -/
def runNonInteractive (cfg : Config)
    (fsTemplates : String → List (FsEntry String))
    (resolvePath : String → String → String) (cwd : String)
    (tp tr : String → String) (rand : Nat → List Nat) (args : Args) :
    RunResult :=
  let templateId := resolveTemplateId args.template
  match lookupTemplate cfg templateId with
  | none => RunResult.fatal 1 []
  | some template =>
    let projectName :=
      match args.name with
      | some n => if n == "" then "my-" ++ templateId else n
      | none => "my-" ++ templateId
    let outputDir :=
      resolvePath cwd
        (match args.output with
         | some o => if o == "" then "./" ++ projectName else o
         | none => "./" ++ projectName)
    let cust : Customizations :=
      template.customizations.map (fun p => (p.1, p.2.default))
    let outTree := copyTemplateFiles tp tr (fsTemplates templateId)
    let envContent := generateEnvFile template cust rand
    let writes :=
      outputDir :: treePaths outputDir outTree
        ++ (match envContent with
            | some _ => [outputDir ++ "/.env.example"]
            | none => [])
    RunResult.done templateId projectName outputDir writes

/-- The candidate-value rule of the amended claim C4, stated in its own
words: when `required` is true the example is used, interpolating as the
literal string `undefined` when absent; otherwise the first non-empty of
default then example, else the empty string. -/
def firstNonEmpty : List (Option String) → String
  | [] => ""
  | none :: rest => firstNonEmpty rest
  | some s :: rest => if s = "" then firstNonEmpty rest else s

/-- Amended C4 candidate value (see `firstNonEmpty`). -/
def amendedCandidate (v : EnvVarSpec) : String :=
  if v.required then
    match v.exampleVal with
    | some e => e
    | none => "undefined"
  else firstNonEmpty [v.default, v.exampleVal]

/-- A minimal concrete catalog entry used to instantiate theorems. -/
def baseTemplate : Template :=
  { name := "API Service", description := "REST API scaffold", complexity := 1,
    stack := ["node", "express"], customizations := [], envVars := [] }

/-- Concrete catalog with only `api-service`. -/
def cfgApiOnly : Config :=
  { templates := [("api-service", baseTemplate)], defaultAuthor := "dev" }

/-- Concrete catalog holding a template under the empty-string id and a
distinct one under `api-service`. -/
def cfgEmptyAB : Config :=
  { templates :=
      [("", { baseTemplate with name := "A" }),
       ("api-service", { baseTemplate with name := "B" })],
    defaultAuthor := "dev" }

/-- Concrete template for instantiating the env-gating theorems: declares
GitHub, Google and Stripe variables. -/
def tplC2 : Template :=
  { baseTemplate with envVars :=
      [⟨"GITHUB_ID", true, none, some "ghid"⟩,
       ⟨"GOOGLE_CLIENT_ID", true, none, some "goid"⟩,
       ⟨"STRIPE_KEY", false, some "sk", none⟩] }

/-- Concrete template whose customizations declare no `authProviders` key. -/
def tplC9 : Template :=
  { baseTemplate with
    customizations := [("includeStripe",
      { ctype := "boolean", label := "Include Stripe?", options := [],
        default := CustomValue.bool true })],
    envVars := [⟨"GITHUB_ID", true, none, some "gh"⟩,
                ⟨"GOOGLE_CLIENT_ID", true, none, some "go"⟩] }

/-! ## Theorems -/

theorem find?_map_keyPres (g : (String × Json) → (String × Json))
    (hg : ∀ p, (g p).1 = p.1) (fs : List (String × Json)) (k : String) :
    (fs.map g).find? (fun p => p.1 == k)
      = (fs.find? (fun p => p.1 == k)).map g := by
  induction fs with
  | nil => rfl
  | cons p fs ih =>
    by_cases hp : (p.1 == k) = true
    · simp [List.find?_cons, hg, hp]
    · simp only [List.map_cons, List.find?_cons, hg, hp]
      simpa [hg, hp] using ih

theorem find?_none_of_any_false (fs : List (String × Json)) (k : String)
    (h : fs.any (fun p => p.1 == k) = false) :
    fs.find? (fun p => p.1 == k) = none := by
  rw [List.find?_eq_none]
  intro x hx hbeq
  have hx2 : fs.any (fun p => p.1 == k) = true :=
    List.any_eq_true.mpr ⟨x, hx, hbeq⟩
  rw [h] at hx2
  exact Bool.false_ne_true hx2

theorem lookupField_setKey_self (fs : List (String × Json)) (k : String)
    (v : Json) : lookupField (setKey fs k v) k = some v := by
  unfold setKey
  by_cases h : fs.any (fun p => p.1 == k)
  · simp only [h, if_true]
    have hg : ∀ p : String × Json,
        ((if p.1 == k then (k, v) else p) : String × Json).1 = p.1 := by
      intro p
      by_cases hp : (p.1 == k) = true
      · simp [hp, (eq_of_beq hp).symm]
      · simp [hp]
    unfold lookupField
    rw [find?_map_keyPres _ hg]
    have hsome : (fs.find? (fun p => p.1 == k)).isSome := by
      rw [List.find?_isSome]
      simpa [List.any_eq_true] using h
    obtain ⟨q, hq⟩ := Option.isSome_iff_exists.mp hsome
    have hqk := List.find?_some hq
    simp only at hqk
    simp [hq, hqk, eq_of_beq hqk]
  · rw [Bool.not_eq_true] at h
    simp only [h]
    rw [if_neg (by decide)]
    unfold lookupField
    rw [List.find?_append, find?_none_of_any_false fs k h]
    simp

theorem lookupField_setKey_other (fs : List (String × Json)) (k k2 : String)
    (v : Json) (hne : k ≠ k2) :
    lookupField (setKey fs k2 v) k = lookupField fs k := by
  have hkk : (k2 == k) = false := by
    simp [Ne.symm hne]
  unfold setKey
  by_cases h : fs.any (fun p => p.1 == k2)
  · simp only [h, if_true]
    have hg : ∀ p : String × Json,
        ((if p.1 == k2 then (k2, v) else p) : String × Json).1 = p.1 := by
      intro p
      by_cases hp : (p.1 == k2) = true
      · simp [hp, (eq_of_beq hp).symm]
      · simp [hp]
    unfold lookupField
    rw [find?_map_keyPres _ hg]
    cases hq : fs.find? (fun p => p.1 == k) with
    | none => simp
    | some q =>
      have hqk := List.find?_some hq
      simp only at hqk
      have hq2 : (q.1 == k2) = false := by
        have hq1 : q.1 = k := by simpa using hqk
        simp [hq1, hne]
      have hq2p : ¬(q.1 = k2) := by simpa using hq2
      simp [hq2, hq2p]
  · rw [Bool.not_eq_true] at h
    simp only [h]
    rw [if_neg (by decide)]
    unfold lookupField
    rw [List.find?_append]
    cases hq : fs.find? (fun p => p.1 == k) with
    | none => simp [hq, List.find?_cons, hkk]
    | some q => simp [hq]

theorem lookupField_deleteInChild_str (fs : List (String × Json))
    (k parent j : String) (s : String)
    (h : lookupField fs k = some (Json.str s)) :
    lookupField (deleteInChild fs parent j) k = some (Json.str s) := by
  unfold deleteInChild
  have hg : ∀ p : String × Json,
      ((if p.1 == parent then
          ((p.1, match p.2 with
            | Json.obj g => Json.obj (deleteKey g j)
            | x => x) : String × Json)
        else p)).1 = p.1 := by
    intro p
    by_cases hp : (p.1 == parent) = true
    · simp [hp]
    · simp [hp]
  unfold lookupField at h ⊢
  rw [find?_map_keyPres _ hg]
  obtain ⟨q, hq, hq2⟩ := Option.map_eq_some'.mp h
  rw [hq]
  simp only [Option.map_some']
  split
  · simp [hq2]
  · simp [hq2]



theorem lookupField_removeAuthDeps_str (cust : Customizations)
    (fs : List (String × Json)) (k s : String)
    (h : lookupField fs k = some (Json.str s)) :
    lookupField (removeAuthDeps cust fs) k = some (Json.str s) := by
  unfold removeAuthDeps
  split
  · exact lookupField_deleteInChild_str _ _ _ _ _
      (lookupField_deleteInChild_str _ _ _ _ _
        (lookupField_deleteInChild_str _ _ _ _ _
          (lookupField_deleteInChild_str _ _ _ _ _ h)))
  · exact h

theorem lookupField_removeRateLimitDeps_str (cust : Customizations)
    (fs : List (String × Json)) (k s : String)
    (h : lookupField fs k = some (Json.str s)) :
    lookupField (removeRateLimitDeps cust fs) k = some (Json.str s) := by
  unfold removeRateLimitDeps
  split
  · exact lookupField_deleteInChild_str _ _ _ _ _ h
  · exact h

theorem lookupField_removeStripeDeps_str (cust : Customizations)
    (fs : List (String × Json)) (k s : String)
    (h : lookupField fs k = some (Json.str s)) :
    lookupField (removeStripeDeps cust fs) k = some (Json.str s) := by
  unfold removeStripeDeps
  split
  · exact lookupField_deleteInChild_str _ _ _ _ _
      (lookupField_deleteInChild_str _ _ _ _ _ h)
  · exact h

theorem lookupField_transformPackageJson (pd : ProjectDetails)
    (cust : Customizations) (pkg : List (String × Json)) (k sv : String)
    (h : lookupField
      (setKey (setKey (setKey (setKey pkg "name" (Json.str pd.projectName))
        "description" (Json.str pd.projectDescription))
        "author" (Json.str pd.author))
        "version" (Json.str "0.1.0")) k = some (Json.str sv)) :
    lookupField (transformPackageJson pd cust pkg) k = some (Json.str sv) := by
  unfold transformPackageJson
  exact lookupField_removeStripeDeps_str _ _ _ _
    (lookupField_removeRateLimitDeps_str _ _ _ _
      (lookupField_removeAuthDeps_str _ _ _ _ h))

/-- C1: for every `projectDetails`, every customization map, and every source
manifest that parses as a JSON object, the manifest produced by
`transformPackageJson` has `name`, `description`, `author` taken from
`projectDetails` and `version` fixed to `"0.1.0"`, regardless of the
template's original values for those fields. -/
theorem claim_C1_transformPackageJson_fields (pd : ProjectDetails)
    (cust : Customizations) (pkg : List (String × Json)) :
    lookupField (transformPackageJson pd cust pkg) "name"
        = some (Json.str pd.projectName)
      ∧ lookupField (transformPackageJson pd cust pkg) "description"
        = some (Json.str pd.projectDescription)
      ∧ lookupField (transformPackageJson pd cust pkg) "author"
        = some (Json.str pd.author)
      ∧ lookupField (transformPackageJson pd cust pkg) "version"
        = some (Json.str "0.1.0") := by
  refine ⟨?_, ?_, ?_, ?_⟩ <;> apply lookupField_transformPackageJson
  · rw [lookupField_setKey_other _ _ _ _ (by decide),
      lookupField_setKey_other _ _ _ _ (by decide),
      lookupField_setKey_other _ _ _ _ (by decide),
      lookupField_setKey_self]
  · rw [lookupField_setKey_other _ _ _ _ (by decide),
      lookupField_setKey_other _ _ _ _ (by decide),
      lookupField_setKey_self]
  · rw [lookupField_setKey_other _ _ _ _ (by decide),
      lookupField_setKey_self]
  · rw [lookupField_setKey_self]

theorem candidateValue_amended (v : EnvVarSpec) :
    jsToString (candidateValue v) = amendedCandidate v := by
  rcases v with ⟨key, req, d, e⟩
  cases req <;> cases d <;> cases e <;>
    simp [candidateValue, amendedCandidate, jsOrStr, jsTruthy, jsToString,
      firstNonEmpty] <;>
    split_ifs <;> simp_all [jsToString]

/-- C4 (amended): for an env var gated by no feature and not secret-keyed,
the emitted line is `KEY=` followed by: the example when `required` is true
and an example is present, the literal string `undefined` (JS interpolation
of the absent example) when `required` is true and the example is absent,
else the first non-empty of default then example, else the empty string. -/
theorem claim_C4_amended_candidate (v : EnvVarSpec) (cust : Customizations)
    (hg1 : (jsIncludes v.key "GITHUB" && !(authIncludes cust "github")) = false)
    (hg2 : (jsIncludes v.key "GOOGLE" && !(authIncludes cust "google")) = false)
    (hg3 : (jsIncludes v.key "STRIPE" && isStripeOff cust) = false)
    (hsec : (jsIncludes v.key "SECRET" && !(jsIncludes v.key "STRIPE")) = false) :
    jsToString (candidateValue v) = amendedCandidate v
      ∧ ∀ (rand : Nat → List Nat) (vs : List EnvVarSpec) (k : Nat),
          (envVarLines cust rand (v :: vs) k).head?
            = some (v.key ++ "=" ++ amendedCandidate v) := by
  refine ⟨candidateValue_amended v, ?_⟩
  intro rand vs k
  simp only [envVarLines, hg1, hg2, hg3, hsec, Bool.false_eq_true, if_false,
    List.head?_cons, candidateValue_amended v]

/-- Witness for C4 at `FOO` required with absent default and example. -/
theorem claim_C4_amended_candidate_witness :
    ((jsIncludes "FOO" "GITHUB" && !(authIncludes ([] : Customizations) "github")) = false
      ∧ (jsIncludes "FOO" "GOOGLE" && !(authIncludes ([] : Customizations) "google")) = false
      ∧ (jsIncludes "FOO" "STRIPE" && isStripeOff ([] : Customizations)) = false
      ∧ (jsIncludes "FOO" "SECRET" && !(jsIncludes "FOO" "STRIPE")) = false)
    ∧ (jsToString (candidateValue ⟨"FOO", true, none, none⟩)
        = amendedCandidate ⟨"FOO", true, none, none⟩
      ∧ ∀ (rand : Nat → List Nat) (vs : List EnvVarSpec) (k : Nat),
          (envVarLines ([] : Customizations) rand
              (⟨"FOO", true, none, none⟩ :: vs) k).head?
            = some ("FOO" ++ "=" ++ amendedCandidate ⟨"FOO", true, none, none⟩)) :=
  ⟨⟨by decide, by decide, by decide, by decide⟩,
    claim_C4_amended_candidate ⟨"FOO", true, none, none⟩ []
      (by decide) (by decide) (by decide) (by decide)⟩

/-- C4 counterexample: a required variable whose default and example are both
absent is emitted as `FOO=undefined` (JS interpolation of `undefined`), not as
`FOO=` with an empty value as the claim states. -/
theorem claim_C4_counterexample :
    envVarLines ([] : Customizations) (fun _ => [])
        [⟨"FOO", true, none, none⟩] 0 = ["FOO=undefined"]
      ∧ ("FOO=undefined" : String) ≠ "FOO=" := by
  decide

/-- C7 (amended): non-interactive invocation with a non-empty template id
that is neither a catalog id nor a short-name alias exits with status 1
having performed no filesystem write. -/
theorem claim_C7_unknown_template (cfg : Config)
    (fsT : String → List (FsEntry String))
    (rp : String → String → String) (cwd : String)
    (tp tr : String → String) (rand : Nat → List Nat) (args : Args)
    (t : String) (ht : args.template = some t) (hne : t ≠ "")
    (halias : lookupStr shortNames t = none)
    (hcat : lookupTemplate cfg t = none) :
    runNonInteractive cfg fsT rp cwd tp tr rand args
      = RunResult.fatal 1 [] := by
  have hres : resolveTemplateId args.template = t := by
    rw [ht]
    simp [resolveTemplateId, halias, hne]
  simp only [runNonInteractive, hres, hcat]

/-- Witness for C7 with `--template=does-not-exist` against a catalog holding
only `api-service`. -/
theorem claim_C7_unknown_template_witness :
    (({ template := some "does-not-exist", name := none, output := none } :
        Args).template = some "does-not-exist"
      ∧ "does-not-exist" ≠ ""
      ∧ lookupStr shortNames "does-not-exist" = none
      ∧ lookupTemplate cfgApiOnly "does-not-exist" = none)
    ∧ runNonInteractive cfgApiOnly (fun _ => []) (fun c p => c ++ "/" ++ p)
        "/home/user" (fun c => c) (fun c => c) (fun _ => [])
        { template := some "does-not-exist", name := none, output := none }
      = RunResult.fatal 1 [] :=
  ⟨⟨rfl, by decide, by decide, by decide⟩,
    claim_C7_unknown_template cfgApiOnly (fun _ => [])
      (fun c p => c ++ "/" ++ p) "/home/user" (fun c => c) (fun c => c)
      (fun _ => []) _ "does-not-exist" rfl (by decide) (by decide) (by decide)⟩

/-- C7 counterexample: `--template=` (the empty string, an id that is neither
a catalog id nor an alias) does not fail: the empty id falls through the JS
`||` chain to `api-service`, the run completes without `process.exit`, and it
creates the output directory. -/
theorem claim_C7_counterexample :
    runNonInteractive cfgApiOnly (fun _ => []) (fun c p => c ++ "/" ++ p)
        "/home/user" (fun c => c) (fun c => c) (fun _ => [])
        { template := some "", name := none, output := none }
      = RunResult.done "api-service" "my-api-service"
          "/home/user/./my-api-service" ["/home/user/./my-api-service"]
      ∧ (["/home/user/./my-api-service"] : List String) ≠ [] := by
  decide

/-- C8 (amended): each short-name alias resolves to the same catalog entry as
its full id, and any non-alias, NON-EMPTY argument resolves to itself (the
empty string instead falls through to `api-service`). -/
theorem claim_C8_alias_resolution (cfg : Config) (t : String)
    (halias : lookupStr shortNames t = none) (hne : t ≠ "") :
    lookupTemplate cfg (resolveTemplateId (some "api"))
        = lookupTemplate cfg "api-service"
      ∧ lookupTemplate cfg (resolveTemplateId (some "saas"))
        = lookupTemplate cfg "saas-level-1"
      ∧ lookupTemplate cfg (resolveTemplateId (some "mobile"))
        = lookupTemplate cfg "mobile-app"
      ∧ lookupTemplate cfg (resolveTemplateId (some "about"))
        = lookupTemplate cfg "about-me-page"
      ∧ resolveTemplateId (some t) = t := by
  refine ⟨?_, ?_, ?_, ?_, ?_⟩
  · rw [show resolveTemplateId (some "api") = "api-service" from by decide]
  · rw [show resolveTemplateId (some "saas") = "saas-level-1" from by decide]
  · rw [show resolveTemplateId (some "mobile") = "mobile-app" from by decide]
  · rw [show resolveTemplateId (some "about") = "about-me-page" from by decide]
  · simp [resolveTemplateId, halias, hne]

/-- Witness for C8 at a concrete catalog and the non-alias id `custom-x`. -/
theorem claim_C8_alias_resolution_witness :
    (lookupStr shortNames "custom-x" = none ∧ "custom-x" ≠ "")
    ∧ (lookupTemplate cfgApiOnly (resolveTemplateId (some "api"))
        = lookupTemplate cfgApiOnly "api-service"
      ∧ lookupTemplate cfgApiOnly (resolveTemplateId (some "saas"))
        = lookupTemplate cfgApiOnly "saas-level-1"
      ∧ lookupTemplate cfgApiOnly (resolveTemplateId (some "mobile"))
        = lookupTemplate cfgApiOnly "mobile-app"
      ∧ lookupTemplate cfgApiOnly (resolveTemplateId (some "about"))
        = lookupTemplate cfgApiOnly "about-me-page"
      ∧ resolveTemplateId (some "custom-x") = "custom-x") :=
  ⟨⟨by decide, by decide⟩,
    claim_C8_alias_resolution cfgApiOnly "custom-x" (by decide) (by decide)⟩

/-- C8 counterexample: the empty string is not an alias, yet it does not
resolve to the catalog entry under its own id: against a catalog holding
distinct templates under `""` and `api-service`, `--template=` resolves to
the `api-service` entry. -/
theorem claim_C8_counterexample :
    resolveTemplateId (some "") = "api-service"
      ∧ (lookupTemplate cfgEmptyAB (resolveTemplateId (some ""))).map
          Template.name = some "B"
      ∧ (lookupTemplate cfgEmptyAB "").map Template.name = some "A"
      ∧ ("B" : String) ≠ "A" := by
  decide

/-- C10: `--defaults` without `--template` does not fail for a missing
template argument (whenever the catalog has an `api-service` entry): the
template id defaults to `api-service`, the project name to
`my-api-service`, and the output directory to `./my-api-service` resolved
against the current working directory. -/
theorem claim_C10_defaults (cfg : Config)
    (fsT : String → List (FsEntry String))
    (rp : String → String → String) (cwd : String)
    (tp tr : String → String) (rand : Nat → List Nat) (tpl : Template)
    (hcat : lookupTemplate cfg "api-service" = some tpl) :
    (runNonInteractive cfg fsT rp cwd tp tr rand
        { template := none, name := none, output := none }).templateId?
        = some "api-service"
      ∧ (runNonInteractive cfg fsT rp cwd tp tr rand
          { template := none, name := none, output := none }).projectName?
        = some "my-api-service"
      ∧ (runNonInteractive cfg fsT rp cwd tp tr rand
          { template := none, name := none, output := none }).outputDir?
        = some (rp cwd "./my-api-service") := by
  simp only [runNonInteractive, resolveTemplateId, hcat]
  exact ⟨rfl, rfl, rfl⟩

/-- Witness for C10 at a concrete catalog. -/
theorem claim_C10_defaults_witness :
    (lookupTemplate cfgApiOnly "api-service" = some baseTemplate)
    ∧ ((runNonInteractive cfgApiOnly (fun _ => [])
        (fun c p => c ++ "/" ++ p) "/home/user" (fun c => c) (fun c => c)
        (fun _ => [])
        { template := none, name := none, output := none }).templateId?
        = some "api-service"
      ∧ (runNonInteractive cfgApiOnly (fun _ => [])
          (fun c p => c ++ "/" ++ p) "/home/user" (fun c => c) (fun c => c)
          (fun _ => [])
          { template := none, name := none, output := none }).projectName?
        = some "my-api-service"
      ∧ (runNonInteractive cfgApiOnly (fun _ => [])
          (fun c p => c ++ "/" ++ p) "/home/user" (fun c => c) (fun c => c)
          (fun _ => [])
          { template := none, name := none, output := none }).outputDir?
        = some ((fun c p => c ++ "/" ++ p) "/home/user" "./my-api-service")) :=
  ⟨by decide,
    claim_C10_defaults cfgApiOnly (fun _ => []) (fun c p => c ++ "/" ++ p)
      "/home/user" (fun c => c) (fun c => c) (fun _ => []) baseTemplate
      (by decide)⟩

theorem envVarLines_cons_shape (cust : Customizations) (rand : Nat → List Nat)
    (v0 : EnvVarSpec) (vs : List EnvVarSpec) (k : Nat) :
    ∃ line k2, envVarLines cust rand (v0 :: vs) k
      = line :: envVarLines cust rand vs k2 := by
  simp only [envVarLines]
  split_ifs <;> exact ⟨_, _, rfl⟩

theorem envVarLines_github_comment (cust : Customizations)
    (rand : Nat → List Nat) (hgh : authIncludes cust "github" = false) :
    ∀ (vs : List EnvVarSpec) (k i : Nat) (v : EnvVarSpec),
      vs[i]? = some v → jsIncludes v.key "GITHUB" = true →
      (envVarLines cust rand vs k)[i]?
        = some ("# " ++ v.key ++ "=" ++ jsToString (candidateValue v)) := by
  intro vs
  induction vs with
  | nil => intro k i v hv _; simp at hv
  | cons v0 vs ih =>
    intro k i v hv hkey
    cases i with
    | zero =>
      rw [List.getElem?_cons_zero] at hv
      obtain rfl : v0 = v := by injection hv
      simp [envVarLines, hkey, hgh]
    | succ i =>
      obtain ⟨line, k2, heq⟩ := envVarLines_cons_shape cust rand v0 vs k
      rw [heq, List.getElem?_cons_succ]
      rw [List.getElem?_cons_succ] at hv
      exact ih k2 i v hv hkey

theorem envVarLines_google_comment (cust : Customizations)
    (rand : Nat → List Nat) (hgo : authIncludes cust "google" = false) :
    ∀ (vs : List EnvVarSpec) (k i : Nat) (v : EnvVarSpec),
      vs[i]? = some v → jsIncludes v.key "GOOGLE" = true →
      (envVarLines cust rand vs k)[i]?
        = some ("# " ++ v.key ++ "=" ++ jsToString (candidateValue v)) := by
  intro vs
  induction vs with
  | nil => intro k i v hv _; simp at hv
  | cons v0 vs ih =>
    intro k i v hv hkey
    cases i with
    | zero =>
      rw [List.getElem?_cons_zero] at hv
      obtain rfl : v0 = v := by injection hv
      by_cases hgate1 : (jsIncludes v0.key "GITHUB"
          && !(authIncludes cust "github")) = true
      · simp [envVarLines, hgate1, hkey, hgo]
      · have hgate1f : (jsIncludes v0.key "GITHUB"
            && !(authIncludes cust "github")) = false := by
          simpa using hgate1
        cases hG : jsIncludes v0.key "GITHUB" <;>
          simp_all [envVarLines, hkey, hgo]
    | succ i =>
      obtain ⟨line, k2, heq⟩ := envVarLines_cons_shape cust rand v0 vs k
      rw [heq, List.getElem?_cons_succ]
      rw [List.getElem?_cons_succ] at hv
      exact ih k2 i v hv hkey

theorem envVarLines_uncommented (cust : Customizations)
    (rand : Nat → List Nat) (hg : authIncludes cust "github" = true) :
    ∀ (vs : List EnvVarSpec) (k i : Nat) (v : EnvVarSpec),
      vs[i]? = some v →
      jsIncludes v.key "GOOGLE" = false →
      (jsIncludes v.key "STRIPE" && isStripeOff cust) = false →
      ∃ s, (envVarLines cust rand vs k)[i]? = some (v.key ++ "=" ++ s)
        ∧ ((jsIncludes v.key "SECRET" && !(jsIncludes v.key "STRIPE")) = false →
            s = jsToString (candidateValue v)) := by
  intro vs
  induction vs with
  | nil => intro k i v hv _ _; simp at hv
  | cons v0 vs ih =>
    intro k i v hv hgoo hstr
    cases i with
    | zero =>
      rw [List.getElem?_cons_zero] at hv
      obtain rfl : v0 = v := by injection hv
      by_cases hsec : (jsIncludes v0.key "SECRET"
          && !(jsIncludes v0.key "STRIPE")) = true
      · have hsec3 := hsec
        simp only [Bool.and_eq_true, Bool.not_eq_true'] at hsec3
        obtain ⟨hs1, hs3⟩ := hsec3
        refine ⟨hexEncode (rand k), ?_, ?_⟩
        · simp [envVarLines, hg, hgoo, hstr, hs1, hs3]
        · intro hcontra
          rw [hsec] at hcontra
          exact absurd hcontra (by simp)
      · have hsec2 : (jsIncludes v0.key "SECRET"
            && !(jsIncludes v0.key "STRIPE")) = false := by
          simpa using hsec
        refine ⟨jsToString (candidateValue v0), ?_, fun _ => rfl⟩
        cases hS : jsIncludes v0.key "SECRET" <;>
          cases hT : jsIncludes v0.key "STRIPE" <;>
          simp_all [envVarLines, hg, hgoo]
    | succ i =>
      obtain ⟨line, k2, heq⟩ := envVarLines_cons_shape cust rand v0 vs k
      rw [heq, List.getElem?_cons_succ]
      rw [List.getElem?_cons_succ] at hv
      exact ih k2 i v hv hgoo hstr

theorem envVarLines_stripe (cust : Customizations) (rand : Nat → List Nat)
    (hg : authIncludes cust "github" = true) :
    ∀ (vs : List EnvVarSpec) (k i : Nat) (v : EnvVarSpec),
      vs[i]? = some v →
      jsIncludes v.key "STRIPE" = true → jsIncludes v.key "GOOGLE" = false →
      (envVarLines cust rand vs k)[i]?
        = some (if isStripeOff cust then
            "# " ++ v.key ++ "=" ++ jsToString (candidateValue v)
          else v.key ++ "=" ++ jsToString (candidateValue v)) := by
  intro vs
  induction vs with
  | nil => intro k i v hv _ _; simp at hv
  | cons v0 vs ih =>
    intro k i v hv hstr hgoo
    cases i with
    | zero =>
      rw [List.getElem?_cons_zero] at hv
      obtain rfl : v0 = v := by injection hv
      cases hoff : isStripeOff cust
      · simp [envVarLines, hg, hgoo, hstr, hoff]
      · simp [envVarLines, hg, hgoo, hstr, hoff]
    | succ i =>
      obtain ⟨line, k2, heq⟩ := envVarLines_cons_shape cust rand v0 vs k
      rw [heq, List.getElem?_cons_succ]
      rw [List.getElem?_cons_succ] at hv
      exact ih k2 i v hv hstr hgoo

/-- C9: when a template's customizations declare no `authProviders` key, the
default-resolved customizations leave `authProviders` undefined
(`undefined?.includes(p)` is falsy), so every env var whose key contains
`GITHUB` or `GOOGLE` is emitted commented out, value still shown. -/
theorem claim_C9_absent_authProviders (tpl : Template) (rand : Nat → List Nat)
    (h : tpl.customizations.all (fun p => p.1 != "authProviders") = true) :
    ∀ (i : Nat) (v : EnvVarSpec), tpl.envVars[i]? = some v →
      (jsIncludes v.key "GITHUB" || jsIncludes v.key "GOOGLE") = true →
      (envVarLines (tpl.customizations.map (fun p => (p.1, p.2.default)))
          rand tpl.envVars 0)[i]?
        = some ("# " ++ v.key ++ "=" ++ jsToString (candidateValue v)) := by
  have hnone : getCustom
      (tpl.customizations.map (fun p => (p.1, p.2.default)))
      "authProviders" = none := by
    unfold getCustom
    have hfind : (tpl.customizations.map
        (fun p => (p.1, p.2.default))).find?
          (fun p => p.1 == "authProviders") = none := by
      rw [List.find?_eq_none]
      intro x hx
      obtain ⟨p, hp, rfl⟩ := List.mem_map.mp hx
      have hone := List.all_eq_true.mp h p hp
      simpa using hone
    simp [hfind]
  have hgh : authIncludes
      (tpl.customizations.map (fun p => (p.1, p.2.default))) "github"
        = false := by
    simp [authIncludes, hnone]
  have hgo : authIncludes
      (tpl.customizations.map (fun p => (p.1, p.2.default))) "google"
        = false := by
    simp [authIncludes, hnone]
  intro i v hv hkey
  rcases (by simpa using hkey : jsIncludes v.key "GITHUB" = true ∨ jsIncludes v.key "GOOGLE" = true) with hG | hGo
  · exact envVarLines_github_comment _ rand hgh _ 0 i v hv hG
  · exact envVarLines_google_comment _ rand hgo _ 0 i v hv hGo

/-- Witness for C9 at a concrete template with GitHub and Google vars and no
`authProviders` customization. -/
theorem claim_C9_absent_authProviders_witness :
    (tplC9.customizations.all (fun p => p.1 != "authProviders") = true)
    ∧ ∀ (i : Nat) (v : EnvVarSpec), tplC9.envVars[i]? = some v →
        (jsIncludes v.key "GITHUB" || jsIncludes v.key "GOOGLE") = true →
        (envVarLines (tplC9.customizations.map (fun p => (p.1, p.2.default)))
            (fun _ => []) tplC9.envVars 0)[i]?
          = some ("# " ++ v.key ++ "=" ++ jsToString (candidateValue v)) :=
  ⟨by decide, claim_C9_absent_authProviders tplC9 (fun _ => []) (by decide)⟩

/-- C2 (amended): with `github` selected and `google` not selected,
`generateEnvFile` joins a fixed header with one line per env var, where:
every var whose key contains `GOOGLE` is commented out with the candidate
value still shown; every var whose key contains `GITHUB` but not `GOOGLE`
and not `STRIPE`-gated is emitted uncommented (with the candidate value
unless it is secret-keyed); and every var whose key contains `STRIPE` but
not `GOOGLE` is commented out exactly when `includeStripe` is `false`. -/
theorem claim_C2_env_gating (tpl : Template) (cust : Customizations)
    (rand : Nat → List Nat)
    (hg : authIncludes cust "github" = true)
    (hng : authIncludes cust "google" = false) :
    (tpl.envVars ≠ [] →
      generateEnvFile tpl cust rand
        = some (String.intercalate "\n"
            (["# Environment Variables", "# Generated by Template Generator",
              ""] ++ envVarLines cust rand tpl.envVars 0)))
    ∧ ∀ (i : Nat) (v : EnvVarSpec), tpl.envVars[i]? = some v →
        ((jsIncludes v.key "GOOGLE" = true →
            (envVarLines cust rand tpl.envVars 0)[i]?
              = some ("# " ++ v.key ++ "=" ++ jsToString (candidateValue v)))
          ∧ (jsIncludes v.key "GITHUB" = true →
              jsIncludes v.key "GOOGLE" = false →
              (jsIncludes v.key "STRIPE" && isStripeOff cust) = false →
              ∃ s, (envVarLines cust rand tpl.envVars 0)[i]?
                  = some (v.key ++ "=" ++ s)
                ∧ ((jsIncludes v.key "SECRET"
                    && !(jsIncludes v.key "STRIPE")) = false →
                    s = jsToString (candidateValue v)))
          ∧ (jsIncludes v.key "STRIPE" = true →
              jsIncludes v.key "GOOGLE" = false →
              (envVarLines cust rand tpl.envVars 0)[i]?
                = some (if isStripeOff cust then
                    "# " ++ v.key ++ "=" ++ jsToString (candidateValue v)
                  else v.key ++ "=" ++ jsToString (candidateValue v)))) := by
  constructor
  · intro hne
    have hempty : tpl.envVars.isEmpty = false := by
      simpa [List.isEmpty_iff] using hne
    simp [generateEnvFile, hempty]
  · intro i v hv
    exact ⟨fun hGo => envVarLines_google_comment cust rand hng _ 0 i v hv hGo,
      fun _ hGoF hstr =>
        envVarLines_uncommented cust rand hg _ 0 i v hv hGoF hstr,
      fun hstr hGoF => envVarLines_stripe cust rand hg _ 0 i v hv hstr hGoF⟩

/-- Witness for C2 at a concrete template with GitHub, Google and Stripe
vars, `authProviders = ['github']` and no `includeStripe` customization. -/
theorem claim_C2_env_gating_witness :
    (authIncludes ([("authProviders", CustomValue.list ["github"])] :
        Customizations) "github" = true
      ∧ authIncludes ([("authProviders", CustomValue.list ["github"])] :
        Customizations) "google" = false)
    ∧ ((tplC2.envVars ≠ [] →
        generateEnvFile tplC2
            ([("authProviders", CustomValue.list ["github"])] :
              Customizations) (fun _ => [])
          = some (String.intercalate "\n"
              (["# Environment Variables",
                "# Generated by Template Generator", ""]
                ++ envVarLines
                  ([("authProviders", CustomValue.list ["github"])] :
                    Customizations) (fun _ => []) tplC2.envVars 0)))
      ∧ ∀ (i : Nat) (v : EnvVarSpec), tplC2.envVars[i]? = some v →
          ((jsIncludes v.key "GOOGLE" = true →
              (envVarLines ([("authProviders", CustomValue.list ["github"])] :
                  Customizations) (fun _ => []) tplC2.envVars 0)[i]?
                = some ("# " ++ v.key ++ "="
                    ++ jsToString (candidateValue v)))
            ∧ (jsIncludes v.key "GITHUB" = true →
                jsIncludes v.key "GOOGLE" = false →
                (jsIncludes v.key "STRIPE"
                  && isStripeOff
                    ([("authProviders", CustomValue.list ["github"])] :
                      Customizations)) = false →
                ∃ s, (envVarLines
                    ([("authProviders", CustomValue.list ["github"])] :
                      Customizations) (fun _ => []) tplC2.envVars 0)[i]?
                    = some (v.key ++ "=" ++ s)
                  ∧ ((jsIncludes v.key "SECRET"
                      && !(jsIncludes v.key "STRIPE")) = false →
                      s = jsToString (candidateValue v)))
            ∧ (jsIncludes v.key "STRIPE" = true →
                jsIncludes v.key "GOOGLE" = false →
                (envVarLines ([("authProviders", CustomValue.list ["github"])] :
                    Customizations) (fun _ => []) tplC2.envVars 0)[i]?
                  = some (if isStripeOff
                      ([("authProviders", CustomValue.list ["github"])] :
                        Customizations) then
                      "# " ++ v.key ++ "=" ++ jsToString (candidateValue v)
                    else v.key ++ "="
                      ++ jsToString (candidateValue v))))) :=
  ⟨⟨by decide, by decide⟩,
    claim_C2_env_gating tplC2
      ([("authProviders", CustomValue.list ["github"])] : Customizations)
      (fun _ => []) (by decide) (by decide)⟩

/-- C2 counterexample: with `authProviders = ['github']`, the variable
`GITHUB_GOOGLE_ID` (whose key contains `GITHUB`) is NOT emitted as an
uncommented line: the GOOGLE gate fires after the GITHUB gate passes. -/
theorem claim_C2_counterexample :
    envVarLines ([("authProviders", CustomValue.list ["github"])] :
        Customizations) (fun _ => [])
        [⟨"GITHUB_GOOGLE_ID", false, some "x", none⟩] 0
      = ["# GITHUB_GOOGLE_ID=x"]
      ∧ ("# GITHUB_GOOGLE_ID=x" : String) ≠ "GITHUB_GOOGLE_ID=x" := by
  decide

theorem hexEncode_length (bs : List Nat) :
    (hexEncode bs).toList.length = 2 * bs.length := by
  show ((bs.map hexByte).flatten).length = 2 * bs.length
  induction bs with
  | nil => rfl
  | cons b bs ih =>
    simp only [List.map_cons, List.flatten_cons, List.length_append, ih,
      List.length_cons, hexByte, List.length_nil]
    omega

theorem digitChar_inj_fin :
    ∀ a b : Fin 16, Nat.digitChar a.val = Nat.digitChar b.val → a = b := by
  decide

theorem digitChar_mem_fin :
    ∀ n : Fin 16, Nat.digitChar n.val ∈ "0123456789abcdef".toList := by
  decide

theorem hexEncode_mem_hexdigits (bs : List Nat) (hlt : ∀ b ∈ bs, b < 256) :
    ∀ c ∈ (hexEncode bs).toList, c ∈ "0123456789abcdef".toList := by
  intro c hc
  change c ∈ (bs.map hexByte).flatten at hc
  obtain ⟨l, hl, hcl⟩ := List.mem_flatten.mp hc
  obtain ⟨b, hb, rfl⟩ := List.mem_map.mp hl
  have hb256 := hlt b hb
  have h1 : b / 16 < 16 := by
    rw [Nat.div_lt_iff_lt_mul (by norm_num)]
    omega
  have h2 : b % 16 < 16 := Nat.mod_lt _ (by norm_num)
  simp only [hexByte, List.mem_cons, List.mem_singleton] at hcl
  rcases hcl with rfl | rfl | hfalse
  · exact digitChar_mem_fin ⟨b / 16, h1⟩
  · exact digitChar_mem_fin ⟨b % 16, h2⟩
  · exact absurd hfalse (List.not_mem_nil c)

theorem hexEncode_inj (bs : List Nat) : ∀ (cs : List Nat),
    (∀ b ∈ bs, b < 256) → (∀ c ∈ cs, c < 256) →
    (hexEncode bs).toList = (hexEncode cs).toList → bs = cs := by
  induction bs with
  | nil =>
    intro cs _ _ h
    change (List.map hexByte []).flatten = (cs.map hexByte).flatten at h
    cases cs with
    | nil => rfl
    | cons c cs => simp [hexByte] at h
  | cons b bs ih =>
    intro cs hb hc h
    change ((b :: bs).map hexByte).flatten = (cs.map hexByte).flatten at h
    cases cs with
    | nil => simp [hexByte] at h
    | cons c cs =>
      simp only [List.map_cons, List.flatten_cons, hexByte,
        List.cons_append, List.nil_append, List.cons.injEq] at h
      obtain ⟨e1, e2, e3⟩ := h
      have hb1 := hb b (by simp)
      have hc1 := hc c (by simp)
      have hbd : b / 16 < 16 := by
        rw [Nat.div_lt_iff_lt_mul (by norm_num)]
        omega
      have hcd : c / 16 < 16 := by
        rw [Nat.div_lt_iff_lt_mul (by norm_num)]
        omega
      have hbm : b % 16 < 16 := Nat.mod_lt _ (by norm_num)
      have hcm : c % 16 < 16 := Nat.mod_lt _ (by norm_num)
      have hdiv : b / 16 = c / 16 :=
        congrArg Fin.val (digitChar_inj_fin ⟨b / 16, hbd⟩ ⟨c / 16, hcd⟩ e1)
      have hmod : b % 16 = c % 16 :=
        congrArg Fin.val (digitChar_inj_fin ⟨b % 16, hbm⟩ ⟨c % 16, hcm⟩ e2)
      have hbc : b = c := by omega
      subst hbc
      have htail : bs = cs :=
        ih cs (fun x hx => hb x (List.mem_cons_of_mem _ hx))
          (fun x hx => hc x (List.mem_cons_of_mem _ hx)) (by exact e3)
      rw [htail]

/-- C3: an env var whose key contains `SECRET` but not `STRIPE`, and which no
feature gate comments out, is emitted as `KEY=` followed by the hex encoding
of the 32 bytes drawn from the random source at that point — 64 characters,
all lowercase hex digits; the value does not depend on the spec's `default`
or `example`, and two runs drawing distinct bytes emit distinct lines. -/
theorem claim_C3_secret_generation (cust : Customizations) (v : EnvVarSpec)
    (vs : List EnvVarSpec) (r1 r2 : Nat → List Nat) (k : Nat)
    (hsec : (jsIncludes v.key "SECRET" && !(jsIncludes v.key "STRIPE")) = true)
    (hg1 : (jsIncludes v.key "GITHUB" && !(authIncludes cust "github")) = false)
    (hg2 : (jsIncludes v.key "GOOGLE" && !(authIncludes cust "google")) = false)
    (h1len : (r1 k).length = 32) (h1lt : ∀ b ∈ r1 k, b < 256)
    (h2len : (r2 k).length = 32) (h2lt : ∀ b ∈ r2 k, b < 256) :
    (envVarLines cust r1 (v :: vs) k).head?
        = some (v.key ++ "=" ++ hexEncode (r1 k))
      ∧ (hexEncode (r1 k)).toList.length = 64
      ∧ (∀ c ∈ (hexEncode (r1 k)).toList, c ∈ "0123456789abcdef".toList)
      ∧ (r1 k ≠ r2 k →
          (envVarLines cust r1 (v :: vs) k).head?
            ≠ (envVarLines cust r2 (v :: vs) k).head?)
      ∧ ∀ (d e : Option String),
          (envVarLines cust r1
              ({ v with default := d, exampleVal := e } :: vs) k).head?
            = (envVarLines cust r1 (v :: vs) k).head? := by
  have hsec2 := hsec
  simp only [Bool.and_eq_true, Bool.not_eq_true'] at hsec2
  obtain ⟨hS, hT⟩ := hsec2
  have hhead : ∀ (r : Nat → List Nat),
      (envVarLines cust r (v :: vs) k).head?
        = some (v.key ++ "=" ++ hexEncode (r k)) := by
    intro r
    simp [envVarLines, hg1, hg2, hS, hT]
  refine ⟨hhead r1, ?_, hexEncode_mem_hexdigits _ h1lt, ?_, ?_⟩
  · rw [hexEncode_length, h1len]
  · intro hne hcontra
    rw [hhead r1, hhead r2] at hcontra
    have hstr : v.key ++ "=" ++ hexEncode (r1 k)
        = v.key ++ "=" ++ hexEncode (r2 k) := by
      injection hcontra
    have hlist := congrArg String.toList hstr
    simp only [String.toList, String.data_append] at hlist
    have hhex := List.append_cancel_left hlist
    exact hne (hexEncode_inj _ _ h1lt h2lt hhex)
  · intro d e
    rw [hhead r1]
    simp [envVarLines, hg1, hg2, hS, hT]

/-- Witness for C3 at `AUTH_SECRET` with two concrete byte draws. -/
theorem claim_C3_secret_generation_witness :
    ((jsIncludes "AUTH_SECRET" "SECRET"
        && !(jsIncludes "AUTH_SECRET" "STRIPE")) = true
      ∧ (jsIncludes "AUTH_SECRET" "GITHUB"
        && !(authIncludes ([] : Customizations) "github")) = false
      ∧ (jsIncludes "AUTH_SECRET" "GOOGLE"
        && !(authIncludes ([] : Customizations) "google")) = false
      ∧ (List.range 32).length = 32 ∧ (∀ b ∈ List.range 32, b < 256)
      ∧ (List.replicate 32 0).length = 32
      ∧ (∀ b ∈ List.replicate 32 (0 : Nat), b < 256))
    ∧ ((envVarLines ([] : Customizations) (fun _ => List.range 32)
          ([⟨"AUTH_SECRET", true, none, none⟩] : List EnvVarSpec) 0).head?
        = some ("AUTH_SECRET" ++ "=" ++ hexEncode ((fun _ => List.range 32) 0))
      ∧ (hexEncode ((fun _ => List.range 32) 0)).toList.length = 64
      ∧ (∀ c ∈ (hexEncode ((fun _ => List.range 32) 0)).toList,
          c ∈ "0123456789abcdef".toList)
      ∧ ((fun _ => List.range 32) 0 ≠ (fun _ => List.replicate 32 0) 0 →
          (envVarLines ([] : Customizations) (fun _ => List.range 32)
              ([⟨"AUTH_SECRET", true, none, none⟩] : List EnvVarSpec) 0).head?
            ≠ (envVarLines ([] : Customizations) (fun _ => List.replicate 32 0)
              ([⟨"AUTH_SECRET", true, none, none⟩] : List EnvVarSpec) 0).head?)
      ∧ ∀ (d e : Option String),
          (envVarLines ([] : Customizations) (fun _ => List.range 32)
              ({ (⟨"AUTH_SECRET", true, none, none⟩ : EnvVarSpec) with
                  default := d, exampleVal := e } :: []) 0).head?
            = (envVarLines ([] : Customizations) (fun _ => List.range 32)
              ([⟨"AUTH_SECRET", true, none, none⟩] : List EnvVarSpec) 0).head?) :=
  ⟨⟨by decide, by decide, by decide, by decide, by decide, by decide,
      by decide⟩,
    claim_C3_secret_generation ([] : Customizations)
      ⟨"AUTH_SECRET", true, none, none⟩ [] (fun _ => List.range 32)
      (fun _ => List.replicate 32 0) 0 (by decide) (by decide) (by decide)
      (by decide) (by decide) (by decide) (by decide)⟩

theorem not_mem_of_mem_splitOnP {α : Type} (p : α → Bool) (xs : List α) :
    ∀ l ∈ xs.splitOnP p, ∀ a ∈ l, p a = false := by
  induction xs with
  | nil =>
    intro l hl a ha
    simp only [List.splitOnP_nil, List.mem_singleton] at hl
    subst hl
    simp at ha
  | cons x xs ih =>
    intro l hl a ha
    rw [List.splitOnP_cons] at hl
    by_cases hp : p x
    · rw [if_pos hp] at hl
      rcases List.mem_cons.mp hl with rfl | hl2
      · simp at ha
      · exact ih l hl2 a ha
    · rw [if_neg hp] at hl
      obtain ⟨h, t, hht⟩ : ∃ h t, xs.splitOnP p = h :: t := by
        cases hsp : xs.splitOnP p with
        | nil => exact absurd hsp (List.splitOnP_ne_nil p xs)
        | cons h t => exact ⟨h, t, rfl⟩
      rw [hht] at hl
      simp only [List.modifyHead] at hl
      rcases List.mem_cons.mp hl with rfl | hl2
      · rcases List.mem_cons.mp ha with rfl | ha2
        · simpa using hp
        · exact ih h (hht ▸ List.mem_cons_self h t) a ha2
      · exact ih l (by rw [hht]; exact List.mem_cons_of_mem _ hl2) a ha

theorem not_mem_of_mem_splitOn {α : Type} [DecidableEq α] (x : α)
    (xs : List α) : ∀ l ∈ xs.splitOn x, x ∉ l := by
  intro l hl hmem
  have hfalse := not_mem_of_mem_splitOnP (fun a => a == x) xs l hl x hmem
  simp at hfalse

theorem intercalate_cons₂ {α : Type} (s : α) (a b : List α)
    (t : List (List α)) :
    [s].intercalate (a :: b :: t) = a ++ s :: [s].intercalate (b :: t) := by
  simp [List.intercalate, List.intersperse]

theorem intercalate_append_ne_nil {α : Type} (s : α) (A B : List (List α))
    (hA : A ≠ []) (hB : B ≠ []) :
    [s].intercalate (A ++ B)
      = [s].intercalate A ++ s :: [s].intercalate B := by
  induction A with
  | nil => exact absurd rfl hA
  | cons a A ih =>
    cases A with
    | nil =>
      cases B with
      | nil => exact absurd rfl hB
      | cons b B => simp [intercalate_cons₂, List.intercalate]
    | cons a2 A =>
      have ihh := ih (by simp)
      rw [List.cons_append, List.cons_append, intercalate_cons₂,
        ← List.cons_append, ihh, intercalate_cons₂, List.append_assoc,
        List.cons_append]

theorem transformReadme_splitOn (pd : ProjectDetails) (today content : String)
    (l0 l1 : List Char) (rest2 : List (List Char))
    (hO : content.toList.splitOn '\n' = l0 :: l1 :: rest2)
    (hhash : l0.head? = some '#')
    (hname : '\n' ∉ pd.projectName.toList)
    (htoday : '\n' ∉ today.toList) :
    (transformReadme pd today content).toList.splitOn '\n'
      = [("# " ++ pd.projectName).toList, l1,
         ("> Generated from Project Starter Guide on " ++ today).toList]
        ++ (if rest2 = [] then [[]] else rest2) := by
  have hX : (transformReadme pd today content).toList
      = List.intercalate ['\n']
          ([("# " ++ pd.projectName).toList, l1,
            ("> Generated from Project Starter Guide on " ++ today).toList]
            ++ (if rest2 = [] then [[]] else rest2)) := by
    show (List.asString _).toList = _
    simp only [transformReadme, hO, hhash]
    by_cases hr : rest2 = []
    · subst hr
      simp [intercalate_cons₂, List.intercalate, List.intersperse]
      rfl
    · rw [if_neg hr]
      obtain ⟨r, rest3, rfl⟩ : ∃ r rest3, rest2 = r :: rest3 := by
        cases rest2 with
        | nil => exact absurd rfl hr
        | cons r rest3 => exact ⟨r, rest3, rfl⟩
      simp [intercalate_cons₂, List.intercalate, List.intersperse,
        List.append_assoc]
      rfl
  rw [hX]
  apply List.splitOn_intercalate
  · intro l hl
    have hL0 : '\n' ∉ ("# " ++ pd.projectName).toList := by
      rw [show ("# " ++ pd.projectName).toList
          = "# ".toList ++ pd.projectName.toList from
          String.data_append "# " pd.projectName]
      intro hmem
      rcases List.mem_append.mp hmem with hmem1 | hmem2
      · simp at hmem1
      · exact hname hmem2
    have hN : '\n' ∉ ("> Generated from Project Starter Guide on "
        ++ today).toList := by
      rw [show ("> Generated from Project Starter Guide on "
            ++ today).toList
          = "> Generated from Project Starter Guide on ".toList
            ++ today.toList from String.data_append _ today]
      intro hmem
      rcases List.mem_append.mp hmem with hmem1 | hmem2
      · simp at hmem1
      · exact htoday hmem2
    have hl1 : '\n' ∉ l1 :=
      not_mem_of_mem_splitOn '\n' content.toList l1 (by rw [hO]; simp)
    rcases List.mem_append.mp hl with hl3 | hl4
    · simp only [List.mem_cons, List.not_mem_nil, or_false] at hl3
      rcases hl3 with rfl | rfl | rfl
      · exact hL0
      · exact hl1
      · exact hN
    · by_cases hr : rest2 = []
      · rw [if_pos hr] at hl4
        simp only [List.mem_singleton] at hl4
        subst hl4
        simp
      · rw [if_neg hr] at hl4
        refine not_mem_of_mem_splitOn '\n' content.toList l ?_
        rw [hO]
        exact List.mem_cons_of_mem _ (List.mem_cons_of_mem _ hl4)
  · simp

/-- C6: for readme content of at least two lines whose first line starts with
the character `#` (and a newline-free project name and date, as both come
from line-based input), the transformed readme's first line is `# ` followed
by the project name, its second line is the original second line, its third
line is the `> Generated from Project Starter Guide on <date>` notice, and
every original line from index 2 onward reappears verbatim one position
later. -/
theorem claim_C6_transformReadme (pd : ProjectDetails) (today content : String)
    (hlen : 2 ≤ (content.toList.splitOn '\n').length)
    (hhash : ((content.toList.splitOn '\n').getD 0 []).head? = some '#')
    (hname : '\n' ∉ pd.projectName.toList)
    (htoday : '\n' ∉ today.toList) :
    ((transformReadme pd today content).toList.splitOn '\n')[0]?
        = some (("# " ++ pd.projectName).toList)
      ∧ ((transformReadme pd today content).toList.splitOn '\n')[1]?
        = (content.toList.splitOn '\n')[1]?
      ∧ ((transformReadme pd today content).toList.splitOn '\n')[2]?
        = some (("> Generated from Project Starter Guide on "
            ++ today).toList)
      ∧ ∀ i, 2 ≤ i → i < (content.toList.splitOn '\n').length →
          ((transformReadme pd today content).toList.splitOn '\n')[i + 1]?
            = (content.toList.splitOn '\n')[i]? := by
  rcases hOs : content.toList.splitOn '\n' with _ | ⟨l0, _ | ⟨l1, rest2⟩⟩
  · exact absurd hOs (List.splitOnP_ne_nil _ _)
  · rw [hOs] at hlen
    simp at hlen
  · rw [hOs] at hhash
    simp only [List.getD_cons_zero] at hhash
    have hsplit := transformReadme_splitOn pd today content l0 l1 rest2 hOs
      hhash hname htoday
    refine ⟨?_, ?_, ?_, ?_⟩
    · rw [hsplit]
      simp
    · rw [hsplit]
      simp
    · rw [hsplit]
      by_cases hr : rest2 = [] <;> simp [hr]
    · intro i h2 hlt
      obtain ⟨j, rfl⟩ : ∃ j, i = 2 + j := ⟨i - 2, by omega⟩
      simp only [List.length_cons] at hlt
      have hj : j < rest2.length := by omega
      have hr : rest2 ≠ [] := by
        intro hnil
        rw [hnil] at hj
        simp at hj
      rw [hsplit, if_neg hr]
      have e1 : 2 + j + 1 = j + 1 + 1 + 1 := by omega
      have e2 : 2 + j = j + 1 + 1 := by omega
      rw [e1, e2]
      simp [List.getElem?_cons_succ]

/-- Witness for C6 at a concrete three-line readme. -/
theorem claim_C6_transformReadme_witness :
    (2 ≤ ("# Old Title\nA description\nBody".toList.splitOn '\n').length
      ∧ (("# Old Title\nA description\nBody".toList.splitOn
          '\n').getD 0 []).head? = some '#'
      ∧ '\n' ∉ ("proj" : String).toList
      ∧ '\n' ∉ ("2026-10-11" : String).toList)
    ∧ (((transformReadme ⟨"proj", "d", "a"⟩ "2026-10-11"
          "# Old Title\nA description\nBody").toList.splitOn '\n')[0]?
        = some (("# " ++ "proj").toList)
      ∧ ((transformReadme ⟨"proj", "d", "a"⟩ "2026-10-11"
          "# Old Title\nA description\nBody").toList.splitOn '\n')[1]?
        = ("# Old Title\nA description\nBody".toList.splitOn '\n')[1]?
      ∧ ((transformReadme ⟨"proj", "d", "a"⟩ "2026-10-11"
          "# Old Title\nA description\nBody").toList.splitOn '\n')[2]?
        = some (("> Generated from Project Starter Guide on "
            ++ "2026-10-11").toList)
      ∧ ∀ i, 2 ≤ i →
          i < ("# Old Title\nA description\nBody".toList.splitOn '\n').length →
          ((transformReadme ⟨"proj", "d", "a"⟩ "2026-10-11"
              "# Old Title\nA description\nBody").toList.splitOn '\n')[i + 1]?
            = ("# Old Title\nA description\nBody".toList.splitOn '\n')[i]?) :=
  ⟨⟨by decide, by decide, by decide, by decide⟩,
    claim_C6_transformReadme ⟨"proj", "d", "a"⟩ "2026-10-11"
      "# Old Title\nA description\nBody" (by decide) (by decide) (by decide)
      (by decide)⟩

theorem copyEntries_spec {α : Type} (tp tr : α → α) :
    ∀ (n : Nat) (es : List (FsEntry α)), sizeOf es ≤ n →
      entriesDirs (copyEntries tp tr es)
          = (entriesDirs es).filter
              (fun p => p.all (fun d => !(skipDirs.contains d)))
        ∧ entriesFiles (copyEntries tp tr es)
          = (entriesFiles es).filterMap (keepFile tp tr) := by
  intro n
  induction n with
  | zero =>
    intro es h
    cases es with
    | nil => exact ⟨rfl, rfl⟩
    | cons e es =>
      exfalso
      have hs : sizeOf (e :: es) = 1 + sizeOf e + sizeOf es :=
        List.cons.sizeOf_spec e es
      omega
  | succ n ih =>
    intro es h
    cases es with
    | nil => exact ⟨rfl, rfl⟩
    | cons e es =>
      have hs : sizeOf (e :: es) = 1 + sizeOf e + sizeOf es :=
        List.cons.sizeOf_spec e es
      have hes : sizeOf es ≤ n := by omega
      obtain ⟨ih1, ih2⟩ := ih es hes
      cases e with
      | file nm c =>
        by_cases hskip : nm ∈ skipFiles
        · constructor
          · simp only [copyEntries, copyEntry, if_pos hskip, ih1,
              entriesDirs, entryDirs, List.nil_append]
          · simp only [copyEntries, copyEntry, if_pos hskip, ih2,
              entriesFiles, entryFiles, List.singleton_append,
              List.filterMap_cons]
            have hkeep : keepFile tp tr (([] : List String), nm, c)
                = none := by
              simp [keepFile, hskip]
            rw [hkeep]
        · have hkeep : keepFile tp tr (([] : List String), nm, c)
              = some ([], nm,
                if nm == "README.md" then
                  tr (if nm == "package.json" then tp c else c)
                else if nm == "package.json" then tp c else c) := by
            simp [keepFile, hskip]
          constructor
          · simp only [copyEntries, copyEntry, if_neg hskip, ih1,
              entriesDirs, entryDirs, List.nil_append]
          · simp only [copyEntries, copyEntry, if_neg hskip, ih2,
              entriesFiles, entryFiles, List.singleton_append,
              List.filterMap_cons, hkeep]
      | dir nm cs =>
        have hsd : sizeOf (FsEntry.dir nm cs) = 1 + sizeOf nm + sizeOf cs :=
          FsEntry.dir.sizeOf_spec nm cs
        have hcs : sizeOf cs ≤ n := by omega
        obtain ⟨ihc1, ihc2⟩ := ih cs hcs
        by_cases hskip : nm ∈ skipDirs
        · have hcont : skipDirs.contains nm = true := by
            simpa using hskip
          constructor
          · simp only [copyEntries, copyEntry, if_pos hskip, ih1,
              entriesDirs, entryDirs, List.cons_append]
            rw [List.filter_cons, if_neg (by simp [hskip]),
              List.filter_append]
            have hmapnil : ((entriesDirs cs).map (fun p => nm :: p)).filter
                (fun p => p.all (fun d => !(skipDirs.contains d))) = [] := by
              rw [List.filter_eq_nil_iff]
              intro x hx
              obtain ⟨p, hp, rfl⟩ := List.mem_map.mp hx
              simp only [List.all_cons, hcont, Bool.not_true,
                Bool.false_and]
              exact Bool.false_ne_true
            rw [hmapnil, List.nil_append]
          · simp only [copyEntries, copyEntry, if_pos hskip, ih2,
              entriesFiles, entryFiles, List.filterMap_append]
            have hmapnil : ((entriesFiles cs).map
                (fun q => (nm :: q.1, q.2))).filterMap (keepFile tp tr)
                  = [] := by
              rw [List.filterMap_eq_nil_iff]
              intro x hx
              obtain ⟨q, hq, rfl⟩ := List.mem_map.mp hx
              simp [keepFile, hskip]
            rw [hmapnil, List.nil_append]
        · have hcont : skipDirs.contains nm = false := by
            simpa using hskip
          have hdecf : decide (nm ∈ skipDirs) = false := by
            simpa using hskip
          constructor
          · simp only [copyEntries, copyEntry, if_neg hskip, ih1,
              entriesDirs, entryDirs, List.cons_append, ihc1]
            rw [List.filter_cons, if_pos (by simp [hskip]),
              List.filter_append]
            have hmap : ((entriesDirs cs).map (fun p => nm :: p)).filter
                (fun p => p.all (fun d => !(skipDirs.contains d)))
                  = ((entriesDirs cs).filter
                      (fun p => p.all (fun d => !(skipDirs.contains d)))).map
                    (fun p => nm :: p) := by
              rw [List.filter_map]
              congr 1
              apply List.filter_congr
              intro p _
              simp only [Function.comp, List.all_cons, hcont,
                Bool.not_false, Bool.true_and]
            rw [hmap]
          · simp only [copyEntries, copyEntry, if_neg hskip, ih2,
              entriesFiles, entryFiles, List.filterMap_append, ihc2]
            have hmap : ((entriesFiles cs).map
                (fun q => (nm :: q.1, q.2))).filterMap (keepFile tp tr)
                  = ((entriesFiles cs).filterMap (keepFile tp tr)).map
                    (fun q => (nm :: q.1, q.2)) := by
              rw [List.filterMap_map, List.map_filterMap]
              apply List.filterMap_congr
              intro q _
              simp only [Function.comp]
              by_cases hq : (q.1.any (fun d => d ∈ skipDirs)
                  || q.2.1 ∈ skipFiles) = true
              · have h1 : keepFile tp tr q = none := by
                  simp only [keepFile, if_pos hq]
                have h2 : keepFile tp tr (nm :: q.1, q.2) = none := by
                  simp only [keepFile]
                  rw [if_pos]
                  show ((nm :: q.1).any (fun d => d ∈ skipDirs)
                    || q.2.1 ∈ skipFiles) = true
                  simp only [List.any_cons, hdecf, Bool.false_or]
                  exact hq
                rw [h1, h2]
                rfl
              · have h1 : keepFile tp tr q = some (q.1, q.2.1,
                    if q.2.1 == "README.md" then
                      tr (if q.2.1 == "package.json" then tp q.2.2
                        else q.2.2)
                    else if q.2.1 == "package.json" then tp q.2.2
                    else q.2.2) := by
                  simp only [keepFile, if_neg hq]
                have h2 : keepFile tp tr (nm :: q.1, q.2) = some
                    (nm :: q.1, q.2.1,
                    if q.2.1 == "README.md" then
                      tr (if q.2.1 == "package.json" then tp q.2.2
                        else q.2.2)
                    else if q.2.1 == "package.json" then tp q.2.2
                    else q.2.2) := by
                  simp only [keepFile]
                  rw [if_neg]
                  show ¬ (((nm :: q.1).any (fun d => d ∈ skipDirs)
                    || q.2.1 ∈ skipFiles) = true)
                  simp only [List.any_cons, hdecf, Bool.false_or]
                  exact hq
                rw [h1, h2]
                rfl
            rw [hmap]

/-- C5: the output tree of `copyTemplateFiles` contains, at any depth, no
directory named in the exclusion list (`node_modules`, `.next`, `dist`,
`build`, `coverage`, `.prisma-cache`, `.prisma-home`) and no file named in
the file exclusion list (`.env`, `.env.local`, `package-lock.json`), even
when the source tree contains them; its files are exactly the source files
not under an excluded directory and not excluded by name, with content
transformed for `package.json` and `README.md` and copied verbatim
otherwise; its directories are exactly the non-excluded source directories. -/
theorem claim_C5_copyTemplateFiles {α : Type} (tp tr : α → α)
    (sourceTree : List (FsEntry α)) :
    (∀ p ∈ entriesDirs (copyTemplateFiles tp tr sourceTree),
        ∀ d ∈ p, d ∉ skipDirs)
      ∧ (∀ q ∈ entriesFiles (copyTemplateFiles tp tr sourceTree),
          q.2.1 ∉ skipFiles)
      ∧ entriesFiles (copyTemplateFiles tp tr sourceTree)
        = (entriesFiles sourceTree).filterMap (keepFile tp tr)
      ∧ entriesDirs (copyTemplateFiles tp tr sourceTree)
        = (entriesDirs sourceTree).filter
            (fun p => p.all (fun d => !(skipDirs.contains d))) := by
  obtain ⟨h1, h2⟩ :=
    copyEntries_spec tp tr (sizeOf sourceTree) sourceTree le_rfl
  have hct : copyTemplateFiles tp tr sourceTree
      = copyEntries tp tr sourceTree := rfl
  refine ⟨?_, ?_, by rw [hct, h2], by rw [hct, h1]⟩
  · intro p hp d hd
    rw [hct, h1] at hp
    have hpred := List.of_mem_filter hp
    have hall := List.all_eq_true.mp hpred d hd
    intro hmem
    have hcont : skipDirs.contains d = true := by simpa using hmem
    rw [hcont] at hall
    exact absurd hall (by simp)
  · intro q hq
    rw [hct, h2] at hq
    obtain ⟨q0, hq0, hkeep⟩ := List.mem_filterMap.mp hq
    unfold keepFile at hkeep
    by_cases hc : (q0.1.any (fun d => d ∈ skipDirs)
        || q0.2.1 ∈ skipFiles) = true
    · rw [if_pos hc] at hkeep
      exact absurd hkeep (by simp)
    · rw [if_neg hc] at hkeep
      injection hkeep with hkeep2
      subst hkeep2
      intro hmem
      apply hc
      simp [hmem]
